import Mathlib

/-!
# Verification of the Synaxis protocol simulators

Shallow embedding of the two simulators in `Tools/`:

* `tsl_simulator.py` — the TSL UMD 5.0 tally-frame encoder (`build_tsl5_message`),
  the fixed source catalog (`SOURCES`) and the rotation performed by the main loop.
* `ross_simulator.py` — the RossTalk broadcast server (`send_command`, stop handling)
  and the scripted keyer toggle test (`_run_keyer_toggle_test`).

Python strings are modelled as lists of Unicode code points (`List Nat`); byte
strings as lists of byte values (`List Nat`, each `< 256`).  `struct.pack` is
modelled as a fallible operation (it raises on out-of-range values), so the
encoder returns `Option`.  Caught exceptions are modelled by totality: an
operation whose Python body catches all exceptions is a total Lean function.
-/

/-- Code points of a Lean string literal, used to transcribe the Python string
literals of the source. -/
def strCodes (s : String) : List Nat :=
  s.data.map Char.toNat

/-- Model of `struct.pack("<H", n)`: two little-endian bytes, failing (as the
Python call raises `struct.error`) when `n` does not fit in 16 bits. -/
def pack_u16 (n : Nat) : Option (List Nat) :=
  if n < 65536 then some [n % 256, n / 256] else none

/-- Model of `struct.pack("<B", n)`: one byte, failing when `n ≥ 256`. -/
def pack_u8 (n : Nat) : Option (List Nat) :=
  if n < 256 then some [n] else none

/-- UTF-8 encoding of one code point (the algorithm implemented by Python's
`str.encode("utf-8")` for each character). -/
def utf8EncodeChar (c : Nat) : List Nat :=
  if c < 0x80 then [c]
  else if c < 0x800 then [0xC0 + c / 64, 0x80 + c % 64]
  else if c < 0x10000 then [0xE0 + c / 4096, 0x80 + c / 64 % 64, 0x80 + c % 64]
  else [0xF0 + c / 262144, 0x80 + c / 4096 % 64, 0x80 + c / 64 % 64, 0x80 + c % 64]

/-- Model of `text.encode("utf-8")`: concatenated per-character encodings. -/
def utf8Encode (text : List Nat) : List Nat :=
  (text.map utf8EncodeChar).flatten

/-- The code points Python's UTF-8 codec accepts: Unicode scalar values
(below `0x110000` and not a surrogate). -/
def ValidCodepoint (c : Nat) : Prop :=
  c < 0x110000 ∧ ¬ (0xD800 ≤ c ∧ c < 0xE000)

instance (c : Nat) : Decidable (ValidCodepoint c) := by
  unfold ValidCodepoint; infer_instance

/-- Embedding of `build_tsl5_message` (tsl_simulator.py, lines 23–58).

    text_bytes = text.encode("utf-8"); text_len = len(text_bytes)
    control = (0x03 if program) | (0x03 << 2 if preview)
    pbc = 1 + 1 + 2 + 2 + 2 + 2 + text_len
    msg = pack("<H", pbc) + pack("<B", 0) + pack("<B", 0) + pack("<H", 0)
        + pack("<H", index) + pack("<H", control) + pack("<H", text_len) + text_bytes -/
def build_tsl5_message (index : Nat) (program preview : Bool) (text : List Nat) :
    Option (List Nat) := do
  let text_bytes := utf8Encode text
  let text_len := text_bytes.length
  let control := (if program then 0x03 else 0) ||| (if preview then 0x03 <<< 2 else 0)
  let pbc := 1 + 1 + 2 + 2 + 2 + 2 + text_len
  let bPbc ← pack_u16 pbc
  let bVer ← pack_u8 0x00
  let bFlags ← pack_u8 0x00
  let bScreen ← pack_u16 0x0000
  let bIndex ← pack_u16 index
  let bControl ← pack_u16 control
  let bTextLen ← pack_u16 text_len
  return bPbc ++ bVer ++ bFlags ++ bScreen ++ bIndex ++ bControl ++ bTextLen ++ text_bytes

/-- Little-endian 16-bit value read from a byte list at `off` (missing bytes
read as 0). -/
def readU16 (l : List Nat) (off : Nat) : Nat :=
  l.getD off 0 + 256 * l.getD (off + 1) 0

/-- The control word computed by `build_tsl5_message` (tsl_simulator.py,
lines 40–44): `control = 0`, `|= 0x03` when program, `|= 0x03 << 2` when
preview. -/
def tslControl (program preview : Bool) : Nat :=
  (if program then 0x03 else 0) ||| (if preview then 0x03 <<< 2 else 0)

/-- The payload-length field of an encoder result (offset-0 little-endian
16-bit value). -/
def payloadFieldOf (o : Option (List Nat)) : Option Nat :=
  o.map (readU16 · 0)

/-- Whether a byte is a UTF-8 continuation byte (`0x80 ≤ b < 0xC0`). -/
def isCont (b : Nat) : Bool :=
  0x80 ≤ b && b < 0xC0

/-- A standard streaming UTF-8 decoder, processing one byte at a time.  The
state is `none` between characters, and `some (acc, n)` when `n` continuation
bytes are still expected for a partially accumulated value `acc`. -/
def utf8DecodeSM : Option (Nat × Nat) → List Nat → Option (List Nat)
  | none, [] => some []
  | some _, [] => none
  | none, b :: rest =>
    if b < 0x80 then (utf8DecodeSM none rest).map (b :: ·)
    else if b < 0xC0 then none
    else if b < 0xE0 then utf8DecodeSM (some (b - 0xC0, 1)) rest
    else if b < 0xF0 then utf8DecodeSM (some (b - 0xE0, 2)) rest
    else if b < 0xF8 then utf8DecodeSM (some (b - 0xF0, 3)) rest
    else none
  | some (acc, n), b :: rest =>
    if isCont b then
      if n = 1 then (utf8DecodeSM none rest).map ((acc * 64 + (b - 0x80)) :: ·)
      else utf8DecodeSM (some (acc * 64 + (b - 0x80), n - 1)) rest
    else none

/-- A standard UTF-8 decoder (the external collaborator of the round-trip
property: it recovers code points from the byte stream). -/
def utf8Decode (l : List Nat) : Option (List Nat) :=
  utf8DecodeSM none l

/-- Frame parser (the receiver side described by the spec: it delimits the
frame by the leading payload-length field and the text-length field, and
returns the index, the control word and the text bytes). -/
def parse_tsl5 (l : List Nat) : Option (Nat × Nat × List Nat) :=
  if 12 ≤ l.length then
    let pbc := readU16 l 0
    let tlen := readU16 l 10
    if pbc = l.length - 2 ∧ tlen = l.length - 12 then
      some (readU16 l 6, readU16 l 8, l.drop 12)
    else none
  else none

/-- The fixed source catalog (tsl_simulator.py, lines 62–67). -/
def SOURCES : List (Nat × List Nat) :=
  [(1, strCodes "1:ME1PGM:CAM 1"),
   (2, strCodes "2:ME1PGM:CAM 2"),
   (3, strCodes "3:ME1PGM:CAM 3"),
   (4, strCodes "4:ME1PGM:GRAPHICS")]

/-- The program/preview booleans computed for each catalog position during one
tick of the main loop (tsl_simulator.py, lines 95–97):
`is_program = i == current_program`,
`is_preview = i == (current_program + 1) % len(SOURCES)`. -/
def tickFlags (cursor : Nat) : List (Bool × Bool) :=
  SOURCES.enum.map fun p =>
    (p.1 == cursor, p.1 == (cursor + 1) % SOURCES.length)

/-- The frames built during one tick, in catalog order
(tsl_simulator.py, line 98). -/
def tickFrames (cursor : Nat) : List (Option (List Nat)) :=
  SOURCES.enum.map fun p =>
    build_tsl5_message p.2.1 (p.1 == cursor) (p.1 == (cursor + 1) % SOURCES.length) p.2.2

/-- The cursor update at the end of each tick (tsl_simulator.py, line 114):
`current_program = (current_program + 1) % len(SOURCES)`. -/
def nextCursor (cursor : Nat) : Nat :=
  (cursor + 1) % SOURCES.length

/-! ## RossTalk broadcast server (ross_simulator.py) -/

/-- The mutable state of `RossTalkSimulator`: the `running` flag, whether the
listening socket is open, and the connection set `self.clients` (peers are
identified by a numeric id). -/
structure ServerState where
  running : Bool
  serverOpen : Bool
  clients : List Nat
  deriving Repr, DecidableEq

/-- Serialization done by `send_command` (ross_simulator.py, line 85):
`message = f"{command}\r\n"`. Code point 13 is `\r`, 10 is `\n`. -/
def serializeCommand (cmd : List Nat) : List Nat :=
  cmd ++ [13, 10]

/-- The `for client in self.clients[:]` loop of `send_command`
(ross_simulator.py, lines 87–93): iterate over a snapshot; a successful
`client.send` delivers the message, a failing one removes that client from the
live list (`self.clients.remove(client)`), and the raised exception is caught
inside the loop body.  `fails c = true` models `client.send` raising for peer
`c`. -/
def sendLoop (fails : Nat → Bool) (msg : List Nat) :
    List Nat → List Nat → List (Nat × List Nat) → List Nat × List (Nat × List Nat)
  | [], clients, delivered => (clients, delivered)
  | c :: rest, clients, delivered =>
    if fails c then
      sendLoop fails msg rest (clients.erase c) delivered
    else
      sendLoop fails msg rest clients (delivered ++ [(c, msg)])

/-- Embedding of `send_command` (ross_simulator.py, lines 78–93).  Returns the
new server state, the list of (peer, bytes) deliveries, and whether the
"No clients connected!" warning was printed.  The function is total: every
exception raised by a peer's `send` is caught inside the loop. -/
def send_command (s : ServerState) (fails : Nat → Bool) (cmd : List Nat) :
    ServerState × List (Nat × List Nat) × Bool :=
  if s.clients.isEmpty then
    (s, [], true)
  else
    let msg := serializeCommand cmd
    let r := sendLoop fails msg s.clients s.clients []
    ({ s with clients := r.1 }, r.2, false)

/-- Embedding of the stop path: the `q` menu branch sets `self.running = False`
(ross_simulator.py, lines 180–183) and the `finally` block of `main` closes the
listening socket (lines 270–272).  Nothing touches `self.clients` and no peer
socket is closed. -/
def stop (s : ServerState) : ServerState :=
  { s with running := false, serverOpen := false }

/-! ## Keyer toggle test (ross_simulator.py, lines 236–256) -/

/-- `self.send_command("KEYCUT ME:1:1")` — the "on" variant. -/
def keyOnCmd : List Nat := strCodes "KEYCUT ME:1:1"

/-- `self.send_command("KEYCUT ME:1:1:OFF")` — the "off" variant. -/
def keyOffCmd : List Nat := strCodes "KEYCUT ME:1:1:OFF"

/-- The body of the toggle loop run for `k` full iterations from flag state
`on` (ross_simulator.py, lines 244–251): each iteration sends the off variant
and clears the flag when `keyer_on` holds, otherwise sends the on variant and
sets the flag; returns the commands sent and the final flag. -/
def toggleRun : Nat → Bool → List (List Nat) × Bool
  | 0, keyerOn => ([], keyerOn)
  | Nat.succ k, keyerOn =>
    let cmd := if keyerOn then keyOffCmd else keyOnCmd
    let r := toggleRun k (!keyerOn)
    (cmd :: r.1, r.2)

/-- Embedding of `_run_keyer_toggle_test` cancelled during the sleep of its
`k`-th iteration: the loop starts with `keyer_on = False`, runs `k` iterations,
and the `KeyboardInterrupt` handler (lines 252–255) sends one final off command
when the keyer was left on. -/
def run_keyer_toggle_test (k : Nat) : List (List Nat) :=
  let r := toggleRun k false
  r.1 ++ (if r.2 then [keyOffCmd] else [])

/-- A peer-failure profile under which every `client.send` succeeds. -/
def noFailures : Nat → Bool := fun _ => false

/-- Whether a serialized message ends in the two bytes `\r\n`. -/
def endsWithCRLF (m : List Nat) : Bool :=
  m.drop (m.length - 2) == [13, 10]

/-- Whether a serialized message contains no `\r` and no `\n` before its final
two bytes. -/
def noInnerTerminators (m : List Nat) : Bool :=
  (m.take (m.length - 2)).all fun b => !(b == 13) && !(b == 10)

/-! ## Concrete sanity checks of the embedding -/

/-- The full example frame, byte for byte: payload count 15, index 1, control
3, text length 5, label bytes "CAM 1". -/
theorem sanity_example_frame :
    build_tsl5_message 1 true false (strCodes "CAM 1") =
      some [15, 0, 0, 0, 0, 0, 1, 0, 3, 0, 5, 0, 67, 65, 77, 32, 49] := by
  decide

/-- The parser recovers index, control and text bytes from the example
frame. -/
theorem sanity_example_parse :
    parse_tsl5 [15, 0, 0, 0, 0, 0, 1, 0, 3, 0, 5, 0, 67, 65, 77, 32, 49] =
      some (1, 3, [67, 65, 77, 32, 49]) := by
  decide

/-- A four-byte UTF-8 character (U+1F3A5) encodes and decodes correctly. -/
theorem sanity_utf8_fourbyte :
    utf8Encode [0x1F3A5] = [0xF0, 0x9F, 0x8E, 0xA5] ∧
    utf8Decode [0xF0, 0x9F, 0x8E, 0xA5] = some [0x1F3A5] := by
  decide

/-- Three toggle iterations then cancellation: on, off, on, then the final
off sent by the interrupt handler. -/
theorem sanity_toggle_three :
    run_keyer_toggle_test 3 = [keyOnCmd, keyOffCmd, keyOnCmd, keyOffCmd] := by
  decide

/-- At cursor 0, source position 0 is program and position 1 is preview. -/
theorem sanity_tick_cursor_zero :
    tickFlags 0 = [(true, false), (false, true), (false, false), (false, false)] := by
  decide

/-- Broadcasting to peers 5 and 7 where the write to 5 fails: 7 receives the
terminated command, 5 is dropped, no warning. -/
theorem sanity_broadcast_one_failure :
    send_command ⟨true, true, [5, 7]⟩ (fun c => c == 5) (strCodes "MECUT ME:1") =
      (⟨true, true, [7]⟩, [(7, strCodes "MECUT ME:1" ++ [13, 10])], false) := by
  decide

/-! ## Normal form of the encoder -/

/-- Closed form of `build_tsl5_message`: when the index fits in 16 bits and the
encoded label leaves the payload count within 16 bits, every `struct.pack`
succeeds and the frame is the 12-byte header followed by the UTF-8 label. -/
theorem build_tsl5_message_eq (index : Nat) (program preview : Bool) (text : List Nat)
    (hi : index < 65536) (ht : (utf8Encode text).length ≤ 65525) :
    build_tsl5_message index program preview text =
      some ([(10 + (utf8Encode text).length) % 256, (10 + (utf8Encode text).length) / 256,
             0, 0, 0, 0, index % 256, index / 256,
             tslControl program preview % 256, tslControl program preview / 256,
             (utf8Encode text).length % 256, (utf8Encode text).length / 256] ++
            utf8Encode text) := by
  have hpbc : 1 + 1 + 2 + 2 + 2 + 2 + (utf8Encode text).length < 65536 := by omega
  have hlen : (utf8Encode text).length < 65536 := by omega
  cases program <;> cases preview <;>
    simp [build_tsl5_message, pack_u16, pack_u8, tslControl, hi, hpbc, hlen]

/-! ## Claims about the encoder's length and control fields -/

/-- C1 (counterexample): the claim "payload length field = 8 + byte length of
the encoded label, so the example frame carries 13" is false on the code: for
`index=1, programLive=true, previewLive=false, label="CAM 1"` the field at
offset 0 reads 15, while 8 plus the 5-byte label gives 13. -/
theorem c1_payload_field_counterexample :
    payloadFieldOf (build_tsl5_message 1 true false (strCodes "CAM 1")) = some 15 ∧
    8 + (utf8Encode (strCodes "CAM 1")).length = 13 ∧ (15 : Nat) ≠ 13 := by
  decide

/-- C1 (amended): for every index, programLive, previewLive and label (with the
index and the payload count representable in 16 bits), the encoder writes at
offset 0 a little-endian 16-bit payload length field equal to 10 plus the byte
length of the encoded label; in particular the example frame carries 15. -/
theorem c1_payload_field_amended (index : Nat) (program preview : Bool) (text : List Nat)
    (hi : index < 65536) (ht : (utf8Encode text).length ≤ 65525) :
    ∃ frame, build_tsl5_message index program preview text = some frame ∧
      readU16 frame 0 = 10 + (utf8Encode text).length := by
  refine ⟨_, build_tsl5_message_eq index program preview text hi ht, ?_⟩
  simp [readU16]
  omega

/-- Witness for C1 (amended) at the example input: index 1, program only,
label "CAM 1" — the payload length field reads 10 + 5 = 15. -/
theorem c1_payload_field_amended_witness :
    (1 < 65536 ∧ (utf8Encode (strCodes "CAM 1")).length ≤ 65525) ∧
    ∃ frame, build_tsl5_message 1 true false (strCodes "CAM 1") = some frame ∧
      readU16 frame 0 = 10 + (utf8Encode (strCodes "CAM 1")).length :=
  ⟨by decide, c1_payload_field_amended 1 true false (strCodes "CAM 1") (by decide) (by decide)⟩

/-- C4: for every combination of the two booleans (and any representable index
and label), the 16-bit control field at offset 8 of the encoded frame equals
`(3 if programLive else 0) ||| (3 <<< 2 if previewLive else 0)`; the four
combinations give 0x0003, 0x000C, 0x000F and 0x0000, the two bit pairs being
set independently. -/
theorem c4_control_field (index : Nat) (program preview : Bool) (text : List Nat)
    (hi : index < 65536) (ht : (utf8Encode text).length ≤ 65525) :
    (∃ frame, build_tsl5_message index program preview text = some frame ∧
      readU16 frame 8 = (if program then 0x03 else 0) ||| (if preview then 0x03 <<< 2 else 0)) ∧
    tslControl true false = 0x0003 ∧ tslControl false true = 0x000C ∧
    tslControl true true = 0x000F ∧ tslControl false false = 0x0000 := by
  refine ⟨⟨_, build_tsl5_message_eq index program preview text hi ht, ?_⟩, by decide⟩
  have hc : tslControl program preview < 256 := by
    unfold tslControl; cases program <;> cases preview <;> decide
  simp [readU16, tslControl] at hc ⊢
  omega

/-- Witness for C4 at a concrete input: index 1, both tallies on, label
"CAM 1". -/
theorem c4_control_field_witness :
    (1 < 65536 ∧ (utf8Encode (strCodes "CAM 1")).length ≤ 65525) ∧
    ((∃ frame, build_tsl5_message 1 true true (strCodes "CAM 1") = some frame ∧
      readU16 frame 8 = (if true then 0x03 else 0) ||| (if true then 0x03 <<< 2 else 0)) ∧
    tslControl true false = 0x0003 ∧ tslControl false true = 0x000C ∧
    tslControl true true = 0x000F ∧ tslControl false false = 0x0000) :=
  ⟨by decide, c4_control_field 1 true true (strCodes "CAM 1") (by decide) (by decide)⟩

/-- C10: for every index in 0..65535 and every label (with a representable
payload count), the frame has total byte length 12 plus the UTF-8 byte length
of the label, and the payload-length field at offset 0 equals the total length
minus 2 — exactly the number of bytes that follow the field. -/
theorem c10_frame_delimiting (index : Nat) (program preview : Bool) (text : List Nat)
    (hi : index < 65536) (ht : (utf8Encode text).length ≤ 65525) :
    ∃ frame, build_tsl5_message index program preview text = some frame ∧
      frame.length = 12 + (utf8Encode text).length ∧
      readU16 frame 0 = frame.length - 2 := by
  refine ⟨_, build_tsl5_message_eq index program preview text hi ht, ?_, ?_⟩
  · simp
    omega
  · simp [readU16]
    omega

/-- Witness for C10 at a concrete input. -/
theorem c10_frame_delimiting_witness :
    (1 < 65536 ∧ (utf8Encode (strCodes "CAM 1")).length ≤ 65525) ∧
    ∃ frame, build_tsl5_message 1 true false (strCodes "CAM 1") = some frame ∧
      frame.length = 12 + (utf8Encode (strCodes "CAM 1")).length ∧
      readU16 frame 0 = frame.length - 2 :=
  ⟨by decide, c10_frame_delimiting 1 true false (strCodes "CAM 1") (by decide) (by decide)⟩

/-! ## UTF-8 round trip -/

/-- Decoding one encoded scalar value at the head of a byte stream recovers
that value. -/
theorem utf8Decode_encodeChar_append (c : Nat) (hc : c < 0x110000) (rest : List Nat) :
    utf8DecodeSM none (utf8EncodeChar c ++ rest) = (utf8DecodeSM none rest).map (c :: ·) := by
  unfold utf8EncodeChar
  split_ifs with h1 h2 h3
  · simp [utf8DecodeSM, h1]
  · have hb0a : ¬ (0xC0 + c / 64 < 0x80) := by omega
    have hb0b : ¬ (0xC0 + c / 64 < 0xC0) := by omega
    have hb0c : 0xC0 + c / 64 < 0xE0 := by omega
    have hcont : isCont (0x80 + c % 64) = true := by simp [isCont]; omega
    simp [utf8DecodeSM, hb0a, hb0b, hb0c, hcont]
    congr 1
    funext x
    simp
    omega
  · have hb0a : ¬ (0xE0 + c / 4096 < 0x80) := by omega
    have hb0b : ¬ (0xE0 + c / 4096 < 0xC0) := by omega
    have hb0c : ¬ (0xE0 + c / 4096 < 0xE0) := by omega
    have hb0d : 0xE0 + c / 4096 < 0xF0 := by omega
    have hcont1 : isCont (0x80 + c / 64 % 64) = true := by simp [isCont]; omega
    have hcont2 : isCont (0x80 + c % 64) = true := by simp [isCont]; omega
    simp [utf8DecodeSM, hb0a, hb0b, hb0c, hb0d, hcont1, hcont2]
    congr 1
    funext x
    simp
    omega
  · have hb0a : ¬ (0xF0 + c / 262144 < 0x80) := by omega
    have hb0b : ¬ (0xF0 + c / 262144 < 0xC0) := by omega
    have hb0c : ¬ (0xF0 + c / 262144 < 0xE0) := by omega
    have hb0d : ¬ (0xF0 + c / 262144 < 0xF0) := by omega
    have hb0e : 0xF0 + c / 262144 < 0xF8 := by omega
    have hcont1 : isCont (0x80 + c / 4096 % 64) = true := by simp [isCont]; omega
    have hcont2 : isCont (0x80 + c / 64 % 64) = true := by simp [isCont]; omega
    have hcont3 : isCont (0x80 + c % 64) = true := by simp [isCont]; omega
    simp [utf8DecodeSM, hb0a, hb0b, hb0c, hb0d, hb0e, hcont1, hcont2, hcont3]
    congr 1
    funext x
    simp
    omega

/-- Decoding the UTF-8 encoding of any list of Unicode scalar values recovers
the list. -/
theorem utf8Decode_utf8Encode (text : List Nat) (hv : ∀ c ∈ text, ValidCodepoint c) :
    utf8Decode (utf8Encode text) = some text := by
  induction text with
  | nil => rfl
  | cons c cs ih =>
    have hc : c < 0x110000 := (hv c (by simp)).1
    have hcs : ∀ x ∈ cs, ValidCodepoint x := fun x hx => hv x (by simp [hx])
    calc utf8Decode (utf8Encode (c :: cs))
        = utf8DecodeSM none (utf8EncodeChar c ++ utf8Encode cs) := by
          simp only [utf8Decode, utf8Encode, List.map_cons, List.flatten_cons]
      _ = (utf8DecodeSM none (utf8Encode cs)).map (c :: ·) :=
          utf8Decode_encodeChar_append c hc _
      _ = some (c :: cs) := by
          rw [show utf8DecodeSM none (utf8Encode cs) = some cs from ih hcs]
          rfl

/-- C5: for every label (of Unicode scalar values, with a representable payload
count) and any representable index, the 16-bit text length field at offset 10
equals the UTF-8 encoded byte count of the label, the bytes from offset 12
onward are exactly that UTF-8 encoding, and decoding the frame recovers the
index, the control word and the label text given to the encoder. -/
theorem c5_label_roundtrip (index : Nat) (program preview : Bool) (text : List Nat)
    (hi : index < 65536) (hv : ∀ c ∈ text, ValidCodepoint c)
    (ht : (utf8Encode text).length ≤ 65525) :
    ∃ frame, build_tsl5_message index program preview text = some frame ∧
      readU16 frame 10 = (utf8Encode text).length ∧
      frame.drop 12 = utf8Encode text ∧
      parse_tsl5 frame = some (index, tslControl program preview, utf8Encode text) ∧
      utf8Decode (utf8Encode text) = some text := by
  refine ⟨_, build_tsl5_message_eq index program preview text hi ht, ?_, ?_, ?_,
    utf8Decode_utf8Encode text hv⟩
  · simp [readU16]
    omega
  · simp
  · have hlen :
        (([(10 + (utf8Encode text).length) % 256, (10 + (utf8Encode text).length) / 256,
           0, 0, 0, 0, index % 256, index / 256,
           tslControl program preview % 256, tslControl program preview / 256,
           (utf8Encode text).length % 256, (utf8Encode text).length / 256] ++
          utf8Encode text) : List Nat).length = 12 + (utf8Encode text).length := by
      simp
      omega
    rw [parse_tsl5, hlen]
    have e0 : readU16 ([(10 + (utf8Encode text).length) % 256,
        (10 + (utf8Encode text).length) / 256, 0, 0, 0, 0, index % 256, index / 256,
        tslControl program preview % 256, tslControl program preview / 256,
        (utf8Encode text).length % 256, (utf8Encode text).length / 256] ++
        utf8Encode text) 0 = 10 + (utf8Encode text).length := by
      simp [readU16]
      omega
    have e6 : readU16 ([(10 + (utf8Encode text).length) % 256,
        (10 + (utf8Encode text).length) / 256, 0, 0, 0, 0, index % 256, index / 256,
        tslControl program preview % 256, tslControl program preview / 256,
        (utf8Encode text).length % 256, (utf8Encode text).length / 256] ++
        utf8Encode text) 6 = index := by
      simp [readU16]
      omega
    have e8 : readU16 ([(10 + (utf8Encode text).length) % 256,
        (10 + (utf8Encode text).length) / 256, 0, 0, 0, 0, index % 256, index / 256,
        tslControl program preview % 256, tslControl program preview / 256,
        (utf8Encode text).length % 256, (utf8Encode text).length / 256] ++
        utf8Encode text) 8 = tslControl program preview := by
      simp [readU16]
      omega
    have e10 : readU16 ([(10 + (utf8Encode text).length) % 256,
        (10 + (utf8Encode text).length) / 256, 0, 0, 0, 0, index % 256, index / 256,
        tslControl program preview % 256, tslControl program preview / 256,
        (utf8Encode text).length % 256, (utf8Encode text).length / 256] ++
        utf8Encode text) 10 = (utf8Encode text).length := by
      simp [readU16]
      omega
    rw [e0, e10, e6, e8]
    rw [if_pos (by omega), if_pos (by constructor <;> omega)]
    simp

/-- Witness for C5 at a concrete multi-byte label: index 2, label "CAM ☆ 2"
(the star encodes as three bytes, so byte count 9 differs from character
count 7). -/
theorem c5_label_roundtrip_witness :
    (2 < 65536 ∧ (∀ c ∈ strCodes "CAM ☆ 2", ValidCodepoint c) ∧
      (utf8Encode (strCodes "CAM ☆ 2")).length ≤ 65525) ∧
    ∃ frame, build_tsl5_message 2 true false (strCodes "CAM ☆ 2") = some frame ∧
      readU16 frame 10 = (utf8Encode (strCodes "CAM ☆ 2")).length ∧
      frame.drop 12 = utf8Encode (strCodes "CAM ☆ 2") ∧
      parse_tsl5 frame = some (2, tslControl true false, utf8Encode (strCodes "CAM ☆ 2")) ∧
      utf8Decode (utf8Encode (strCodes "CAM ☆ 2")) = some (strCodes "CAM ☆ 2") :=
  ⟨⟨by decide, by decide, by decide⟩,
    c5_label_roundtrip 2 true false (strCodes "CAM ☆ 2") (by decide) (by decide) (by decide)⟩

/-! ## Rotation invariant of the tally client driver -/

/-- C3: for every reachable rotation cursor value (an index into the fixed
catalog of 4 sources), one tick marks exactly one source as programLive — the
one at the cursor — and exactly one source as previewLive — the one at
cursor+1 modulo the catalog size; the frames built by the tick carry exactly
these flags in their control fields; and advancing the cursor once per tick
returns it to its initial value after 4 ticks. -/
theorem c3_rotation_invariant (cursor : Nat) (h : cursor < SOURCES.length) :
    ((tickFlags cursor).countP (fun x => x.1) = 1 ∧
     (tickFlags cursor).countP (fun x => x.2) = 1 ∧
     ((tickFlags cursor).getD cursor (false, false)).1 = true ∧
     ((tickFlags cursor).getD ((cursor + 1) % SOURCES.length) (false, false)).2 = true) ∧
    (tickFrames cursor).map (Option.map (fun f => readU16 f 8)) =
      (tickFlags cursor).map (fun x => some (tslControl x.1 x.2)) ∧
    nextCursor^[SOURCES.length] cursor = cursor := by
  have h4 : cursor < 4 := by simpa [SOURCES] using h
  interval_cases cursor <;> decide

/-- Witness for C3 at cursor value 2. -/
theorem c3_rotation_invariant_witness :
    (2 < SOURCES.length) ∧
    (((tickFlags 2).countP (fun x => x.1) = 1 ∧
      (tickFlags 2).countP (fun x => x.2) = 1 ∧
      ((tickFlags 2).getD 2 (false, false)).1 = true ∧
      ((tickFlags 2).getD ((2 + 1) % SOURCES.length) (false, false)).2 = true) ∧
     (tickFrames 2).map (Option.map (fun f => readU16 f 8)) =
       (tickFlags 2).map (fun x => some (tslControl x.1 x.2)) ∧
     nextCursor^[SOURCES.length] 2 = 2) :=
  ⟨by decide, c3_rotation_invariant 2 (by decide)⟩

/-! ## Broadcast loop: closed form -/

/-- Closed form of the broadcast loop: the final live list is the fold erasing
each failing snapshot element, and the deliveries are the non-failing snapshot
elements in order, each paired with the message. -/
theorem sendLoop_eq (fails : Nat → Bool) (msg : List Nat) (snapshot : List Nat) :
    ∀ (clients : List Nat) (delivered : List (Nat × List Nat)),
      sendLoop fails msg snapshot clients delivered =
        (snapshot.foldl (fun acc c => if fails c then acc.erase c else acc) clients,
         delivered ++ (snapshot.filter (fun c => !fails c)).map (fun c => (c, msg))) := by
  induction snapshot with
  | nil => intro clients delivered; simp [sendLoop]
  | cons c rest ih =>
    intro clients delivered
    by_cases hf : fails c
    · simp [sendLoop, hf, ih]
    · simp [sendLoop, hf, ih]

/-- Erasing nothing: the fold is the identity when no element fails. -/
theorem foldl_erase_id (fails : Nat → Bool) :
    ∀ (l acc : List Nat), (∀ c ∈ l, fails c = false) →
      l.foldl (fun acc c => if fails c then acc.erase c else acc) acc = acc := by
  intro l
  induction l with
  | nil => intro acc _; rfl
  | cons c rest ih =>
    intro acc h
    have hc : fails c = false := h c (by simp)
    rw [List.foldl_cons, if_neg (by simp [hc])]
    exact ih acc (fun x hx => h x (by simp [hx]))

/-- When exactly the element `k` of a duplicate-free list fails, the fold
erases `k` and nothing else. -/
theorem foldl_erase_single (fails : Nat → Bool) (k : Nat) :
    ∀ (l acc : List Nat), l.Nodup → k ∈ l → (∀ p ∈ l, fails p = decide (p = k)) →
      l.foldl (fun acc c => if fails c then acc.erase c else acc) acc = acc.erase k := by
  intro l
  induction l with
  | nil => intro acc _ hk _; exact absurd hk (by simp)
  | cons c rest ih =>
    intro acc hnd hk hf
    by_cases hck : c = k
    · subst hck
      have hfc : fails c = true := by simpa using hf c (by simp)
      have hrest : ∀ x ∈ rest, fails x = false := by
        intro x hx
        have hxc : x ≠ c := by
          intro e
          exact (List.nodup_cons.mp hnd).1 (e ▸ hx)
        simpa [hxc] using hf x (by simp [hx])
      simp only [List.foldl_cons, hfc, if_pos rfl]
      exact foldl_erase_id fails rest (acc.erase c) hrest
    · have hfc : fails c = false := by simpa [hck] using hf c (by simp)
      have hkrest : k ∈ rest := by
        rcases List.mem_cons.mp hk with h | h
        · exact absurd h.symm hck
        · exact h
      rw [List.foldl_cons, if_neg (by simp [hfc])]
      exact ih acc (List.nodup_cons.mp hnd).2 hkrest (fun p hp => hf p (by simp [hp]))

/-- When no peer's write fails, `send_command` leaves the server state
unchanged and delivers the serialized command to every peer in order. -/
theorem send_command_all_delivered (s : ServerState) (fails : Nat → Bool) (cmd : List Nat)
    (h : ∀ p ∈ s.clients, fails p = false) :
    (send_command s fails cmd).1 = s ∧
    (send_command s fails cmd).2.1 = s.clients.map (fun c => (c, serializeCommand cmd)) := by
  by_cases he : s.clients.isEmpty
  · have hnil : s.clients = [] := List.isEmpty_iff.mp he
    simp [send_command, he, hnil]
  · have hfold := foldl_erase_id fails s.clients s.clients h
    have hfilter : s.clients.filter (fun c => !fails c) = s.clients := by
      have hcg : s.clients.filter (fun c => !fails c) = s.clients.filter (fun _ => true) :=
        List.filter_congr (fun x hx => by simp [h x hx])
      rw [hcg, List.filter_true]
    simp [send_command, he, sendLoop_eq, hfold, hfilter]

/-! ## Claims about the broadcast server -/

/-- C2: for every command and every duplicate-free Connection Set, if during a
broadcast the write to exactly one peer `k` fails, then every peer other than
`k` (in set order) receives the full serialized command, only peer `k` is
removed from the Connection Set, no warning is raised (and no exception
reaches the caller: `send_command` is total), and a subsequent broadcast
delivers to exactly N-1 peers. -/
theorem c2_single_peer_failure (s : ServerState) (fails : Nat → Bool)
    (cmd cmd2 : List Nat) (k : Nat) (hnd : s.clients.Nodup) (hk : k ∈ s.clients)
    (hf : ∀ p ∈ s.clients, fails p = decide (p = k)) :
    (send_command s fails cmd).1.clients = s.clients.erase k ∧
    (send_command s fails cmd).2.1 =
      (s.clients.erase k).map (fun c => (c, serializeCommand cmd)) ∧
    (send_command s fails cmd).2.2 = false ∧
    (send_command (send_command s fails cmd).1 fails cmd2).2.1.length =
      s.clients.length - 1 := by
  have hne : ¬ s.clients.isEmpty = true := by
    simp only [List.isEmpty_iff]
    exact List.ne_nil_of_mem hk
  have hfold := foldl_erase_single fails k s.clients s.clients hnd hk hf
  have hfilter : s.clients.filter (fun c => !fails c) = s.clients.erase k := by
    rw [hnd.erase_eq_filter k]
    exact List.filter_congr fun x hx => by
      rw [hf x hx]
      by_cases hxk : x = k <;> simp [hxk]
  have h1 : (send_command s fails cmd).1.clients = s.clients.erase k := by
    simp [send_command, hne, sendLoop_eq, hfold]
  have h2 : (send_command s fails cmd).2.1 =
      (s.clients.erase k).map (fun c => (c, serializeCommand cmd)) := by
    simp [send_command, hne, sendLoop_eq, hfilter]
  have h3 : (send_command s fails cmd).2.2 = false := by
    simp [send_command, hne, sendLoop_eq]
  refine ⟨h1, h2, h3, ?_⟩
  have hs'f : ∀ p ∈ (send_command s fails cmd).1.clients, fails p = false := by
    rw [h1]
    intro p hp
    have hpk : p ≠ k := (hnd.mem_erase_iff.mp hp).1
    have hpc : p ∈ s.clients := List.mem_of_mem_erase hp
    simpa [hpk] using hf p hpc
  have hall := (send_command_all_delivered (send_command s fails cmd).1 fails cmd2 hs'f).2
  rw [hall, List.length_map, h1]
  exact List.length_erase_of_mem hk

/-- Witness for C2: two connected peers 5 and 7, the write to peer 5 fails;
peer 7 alone receives the message, peer 5 is dropped, and the following
broadcast reaches exactly one peer. -/
theorem c2_single_peer_failure_witness :
    (([5, 7] : List Nat).Nodup ∧ 5 ∈ ([5, 7] : List Nat) ∧
      (∀ p ∈ ([5, 7] : List Nat), (fun c : Nat => c == 5) p = decide (p = 5))) ∧
    ((send_command ⟨true, true, [5, 7]⟩ (fun c => c == 5) (strCodes "MECUT ME:1")).1.clients =
        ([5, 7] : List Nat).erase 5 ∧
      (send_command ⟨true, true, [5, 7]⟩ (fun c => c == 5) (strCodes "MECUT ME:1")).2.1 =
        (([5, 7] : List Nat).erase 5).map
          (fun c => (c, serializeCommand (strCodes "MECUT ME:1"))) ∧
      (send_command ⟨true, true, [5, 7]⟩ (fun c => c == 5) (strCodes "MECUT ME:1")).2.2 = false ∧
      (send_command (send_command ⟨true, true, [5, 7]⟩ (fun c => c == 5)
          (strCodes "MECUT ME:1")).1 (fun c => c == 5) (strCodes "MEAUTO ME:1")).2.1.length =
        ([5, 7] : List Nat).length - 1) :=
  ⟨⟨by decide, by decide, by decide⟩,
    c2_single_peer_failure ⟨true, true, [5, 7]⟩ (fun c => c == 5)
      (strCodes "MECUT ME:1") (strCodes "MEAUTO ME:1") 5 (by decide) (by decide) (by decide)⟩

/-- C9: for every command and failure profile, broadcasting while the
Connection Set is empty reports the no-peers warning, delivers nothing, raises
no error (`send_command` is total and returns normally), and leaves the whole
server state unchanged. -/
theorem c9_broadcast_no_peers (s : ServerState) (fails : Nat → Bool) (cmd : List Nat)
    (h : s.clients = []) :
    send_command s fails cmd = (s, [], true) := by
  simp [send_command, h]

/-- Witness for C9: a running server with no clients. -/
theorem c9_broadcast_no_peers_witness :
    (ServerState.clients ⟨true, true, []⟩ = []) ∧
    send_command ⟨true, true, []⟩ noFailures (strCodes "MECUT ME:1") =
      (⟨true, true, []⟩, [], true) :=
  ⟨rfl, c9_broadcast_no_peers ⟨true, true, []⟩ noFailures (strCodes "MECUT ME:1") rfl⟩

/-- C7 (counterexample): the claim "after Stop all open Peer Connections are
closed and every subsequent Broadcast is a no-op that reports no-peers" is
false on the code: stopping a server with one connected peer leaves that peer
in the Connection Set, and a subsequent broadcast delivers to it without
reporting the no-peers condition. -/
theorem c7_stop_counterexample :
    (stop ⟨true, true, [7]⟩).clients = [7] ∧
    (send_command (stop ⟨true, true, [7]⟩) noFailures (strCodes "MECUT ME:1")).2.2 = false ∧
    (send_command (stop ⟨true, true, [7]⟩) noFailures (strCodes "MECUT ME:1")).2.1 =
      [(7, serializeCommand (strCodes "MECUT ME:1"))] := by
  decide

/-- C7 (amended): Stop clears the running flag and closes the listening
socket, but does not close or remove open Peer Connections — the Connection
Set is unchanged — so a subsequent Broadcast reports the no-peers condition
exactly when the Connection Set was already empty. -/
theorem c7_stop_amended (s : ServerState) (fails : Nat → Bool) (cmd : List Nat) :
    (stop s).running = false ∧ (stop s).serverOpen = false ∧
    (stop s).clients = s.clients ∧
    (send_command (stop s) fails cmd).2.2 = s.clients.isEmpty := by
  refine ⟨rfl, rfl, rfl, ?_⟩
  by_cases he : s.clients.isEmpty <;> simp [send_command, stop, he]

/-! ## Claims about command serialization -/

/-- C6 (counterexample): the claim "for every text command the serialized form
contains no `\r` or `\n` other than the final terminator" is false on the
code: `send_command` appends `\r\n` without inspecting the command, so the
command `"A\rB"` (code points 65, 13, 66) serializes with an embedded `\r`
before the terminator. -/
theorem c6_serialize_counterexample :
    endsWithCRLF (serializeCommand [65, 13, 66]) = true ∧
    noInnerTerminators (serializeCommand [65, 13, 66]) = false := by
  decide

/-- C6 (amended): for every text command that itself contains no `\r` and no
`\n`, the serialized form ends exactly in `\r\n` and contains no `\r` or `\n`
other than that final terminator. -/
theorem c6_serialize_crlf (cmd : List Nat) (h : ∀ b ∈ cmd, b ≠ 13 ∧ b ≠ 10) :
    endsWithCRLF (serializeCommand cmd) = true ∧
    noInnerTerminators (serializeCommand cmd) = true := by
  have hlen : (serializeCommand cmd).length - 2 = cmd.length := by
    simp [serializeCommand]
  constructor
  · have hdrop : (serializeCommand cmd).drop cmd.length = [13, 10] := by
      simp [serializeCommand]
    simp [endsWithCRLF, hlen, hdrop]
  · have htake : (serializeCommand cmd).take cmd.length = cmd := by
      simp [serializeCommand]
    simp only [noInnerTerminators, hlen, htake, List.all_eq_true]
    intro b hb
    have := h b hb
    simp [this.1, this.2]

/-- Witness for C6 (amended) at the command "MECUT ME:1". -/
theorem c6_serialize_crlf_witness :
    (∀ b ∈ strCodes "MECUT ME:1", b ≠ 13 ∧ b ≠ 10) ∧
    (endsWithCRLF (serializeCommand (strCodes "MECUT ME:1")) = true ∧
     noInnerTerminators (serializeCommand (strCodes "MECUT ME:1")) = true) :=
  ⟨by decide, c6_serialize_crlf (strCodes "MECUT ME:1") (by decide)⟩

/-! ## Claims about the keyer toggle test -/

/-- After a positive number of toggle iterations, the last command sent inside
the loop is the one matching the final flag state: "on" when `keyer_on` ends
true, "off" when it ends false. -/
theorem toggleRun_getLast (k : Nat) : ∀ b : Bool, 0 < k →
    (toggleRun k b).1.getLast? =
      some (if (toggleRun k b).2 then keyOnCmd else keyOffCmd) := by
  induction k with
  | zero => intro b h; omega
  | succ n ih =>
    intro b _
    cases n with
    | zero => cases b <;> simp [toggleRun]
    | succ m =>
      have hne := ih (!b) (Nat.succ_pos m)
      obtain ⟨x, xs, hx⟩ : ∃ x xs, (toggleRun (m + 1) (!b)).1 = x :: xs := by
        cases hc : (toggleRun (m + 1) (!b)).1 with
        | nil => rw [hc] at hne; simp at hne
        | cons x xs => exact ⟨x, xs, rfl⟩
      rw [show toggleRun (m + 1 + 1) b =
            ((if b then keyOffCmd else keyOnCmd) :: (toggleRun (m + 1) (!b)).1,
             (toggleRun (m + 1) (!b)).2) from rfl]
      rw [hx, List.getLast?_cons_cons, ← hx]
      exact ih (!b) (Nat.succ_pos m)

/-- C8: for every point at which the keyer toggle test is cancelled (after `k`
completed loop iterations), either no keyer command was sent at all, or the
last keyer command sent before the test exits is the "off" variant
`KEYCUT ME:1:1:OFF` — the cancellation handler sends one final off command
whenever the keyer was last switched on, so the keyer is never left on. -/
theorem c8_toggle_ends_off (k : Nat) :
    run_keyer_toggle_test k = [] ∨
    (run_keyer_toggle_test k).getLast? = some keyOffCmd := by
  cases k with
  | zero => left; rfl
  | succ n =>
    right
    have hg := toggleRun_getLast (n + 1) false (Nat.succ_pos n)
    by_cases h2 : (toggleRun (n + 1) false).2
    · simp [run_keyer_toggle_test, h2, List.getLast?_concat]
    · simp only [Bool.not_eq_true] at h2
      simp [run_keyer_toggle_test, h2, hg]
